import Mathlib

/-!
Verification development for the SNGP `deterministic.py` script.

The script trains a deterministic residual MLP on the two-moons dataset and
plots class-probability and uncertainty surfaces.  We embed the relevant
fragments shallowly: tensors of floats become lists of rationals, a linear
layer is a weight matrix plus a bias vector, stateful library behaviour
(autograd, the Adam step's skip of parameters without gradients, the
`nn.Module` training flag, the global RNG state) is made explicit.
-/

set_option autoImplicit false

namespace SNGP

/-! ### Constants from the script (lines 34-38, 133, 141-142) -/

/-- `DEFAULT_X_RANGE = (-3.5, 3.5)` (line 34). -/
def DEFAULT_X_RANGE : ℚ × ℚ := (-7/2, 7/2)

/-- `DEFAULT_Y_RANGE = (-2.5, 2.5)` (line 35). -/
def DEFAULT_Y_RANGE : ℚ × ℚ := (-5/2, 5/2)

/-- `DEFAULT_N_GRID = 100` (line 38). -/
def DEFAULT_N_GRID : ℕ := 100

/-- `num_epochs = 100` (line 141). -/
def num_epochs : ℕ := 100

/-- `dropout_rate=0.01` passed at model construction (line 133). -/
def dropout_rate : ℚ := 1/100

/-! ### Testing grid (`make_testing_data`, lines 53-61) -/

/-- `np.linspace(a, b, n)`: `n` evenly spaced samples, endpoints included;
sample `i` is `a + (b - a) * i / (n - 1)`. -/
def linspace (a b : ℚ) (n : ℕ) : List ℚ :=
  (List.range n).map (fun i : ℕ => a + (b - a) * (i : ℚ) / ((n : ℚ) - 1))

/-- `np.meshgrid(x, y)[0]` (default `xy` indexing): the x-coordinate grid,
one row per entry of `y`, each row a copy of `x`. -/
def meshgridX (x y : List ℚ) : List (List ℚ) :=
  y.map (fun _ => x)

/-- `np.meshgrid(x, y)[1]` (default `xy` indexing): the y-coordinate grid,
row `i` repeats `y i` once per entry of `x`. -/
def meshgridY (x y : List ℚ) : List (List ℚ) :=
  y.map (fun yi => x.map (fun _ => yi))

/-- `make_testing_data` (lines 53-61): linspace both axes, meshgrid, flatten
both coordinate grids row-major, and stack them into a list of 2D points. -/
def make_testing_data (x_range y_range : ℚ × ℚ) (n_grid : ℕ) : List (ℚ × ℚ) :=
  let x := linspace x_range.1 x_range.2 n_grid
  let y := linspace y_range.1 y_range.2 n_grid
  List.zip (meshgridX x y).flatten (meshgridY x y).flatten

/-! ### Uncertainty surface normalization (`plot_uncertainty_surface`, line 185) -/

/-- `torch.max` over a nonempty 1-D tensor: the greatest element
(`0` only for the empty list, where torch would error). -/
def maxOf : List ℚ → ℚ
  | [] => 0
  | h :: t => t.foldl max h

/-- Line 185, `test_uncertainty = test_uncertainty / torch.max(test_uncertainty)`:
elementwise division of the score array by its maximum, with no guard. -/
def normalizeScores (u : List ℚ) : List ℚ :=
  u.map (fun x => x / maxOf u)

/-- Division made partial: float division by zero does not produce a finite
normalized score, so it is modelled as `none`. -/
def div? (a b : ℚ) : Option ℚ :=
  if b = 0 then none else some (a / b)

/-- Effectful traversal of a list in the `Option` monad: `none` as soon as
one element fails. -/
def optionTraverse {α β : Type} (f : α → Option β) : List α → Option (List β)
  | [] => some []
  | a :: t =>
    match f a, optionTraverse f t with
    | some b, some bs => some (b :: bs)
    | _, _ => none

/-- The same normalization as `normalizeScores` with each division checked:
`none` as soon as one of the divisions in line 185 divides by zero. -/
def normalizeScoresChecked (u : List ℚ) : Option (List ℚ) :=
  optionTraverse (fun x => div? x (maxOf u)) u

/-! ### Two-moons training data (`make_training_data`, lines 42-51)

`sklearn.datasets.make_moons(n_samples=2*s, noise=0.1)` produces `s` outer-moon
points labelled 0 followed by `s` inner-moon points labelled 1, then (with its
default `shuffle=True`) applies one random permutation jointly to points and
labels.  The trigonometric point coordinates and the Gaussian noise are
irrelevant to the claims, so the point at pre-shuffle index `k` is abstracted
as `basePoint k`; the label layout and the joint shuffle are modelled exactly. -/

/-- The labels `make_moons` assigns before shuffling: `s` zeros (outer moon)
then `s` ones (inner moon), as floats. -/
def moonLabelsBase (s : ℕ) : List ℚ :=
  List.replicate s 0 ++ List.replicate s 1

/-- `make_moons(n_samples=2*s, noise=0.1)` with the shuffle given explicitly as
a list `perm` of pre-shuffle indices: entry `k` of the result is point
`basePoint (perm k)` with label `moonLabelsBase s (perm k)`. -/
def make_moons (s : ℕ) (basePoint : ℕ → ℚ × ℚ) (perm : List ℕ) :
    List (ℚ × ℚ) × List ℚ :=
  (perm.map basePoint, perm.map (fun k => (moonLabelsBase s).getD k 0))

/-- `make_training_data` (lines 42-51): call `make_moons`, then
`train_examples[train_labels == 0] += [-0.1, 0.2]` and
`train_examples[train_labels == 1] += [0.1, -0.2]` (two masked in-place adds),
and return examples with labels. -/
def make_training_data (s : ℕ) (basePoint : ℕ → ℚ × ℚ) (perm : List ℕ) :
    List (ℚ × ℚ) × List ℚ :=
  let ex0 := (make_moons s basePoint perm).1
  let lb := (make_moons s basePoint perm).2
  let ex1 := List.zipWith
    (fun l (p : ℚ × ℚ) => if l = 0 then (p.1 + (-1/10), p.2 + 2/10) else p) lb ex0
  let ex2 := List.zipWith
    (fun l (p : ℚ × ℚ) => if l = 1 then (p.1 + 1/10, p.2 + (-2/10)) else p) lb ex1
  (ex2, lb)

/-! ### The residual model (`DeepResnet`, lines 94-129) -/

/-- Elementwise sum of two equal-length vectors (tensor `+`). -/
def vadd (a b : List ℚ) : List ℚ := List.zipWith (· + ·) a b

/-- Dot product of two equal-length vectors. -/
def dot (a b : List ℚ) : ℚ := (List.zipWith (· * ·) a b).sum

/-- An `nn.Linear` layer: weight matrix (one row per output feature) and bias. -/
structure Linear where
  weight : List (List ℚ)
  bias : List ℚ
deriving Repr, DecidableEq

/-- Applying `nn.Linear`: output feature `o` is `dot(weight[o], x) + bias[o]`. -/
def Linear.apply (l : Linear) (x : List ℚ) : List ℚ :=
  List.zipWith (fun row b => dot row x + b) l.weight l.bias

/-- `F.relu`, elementwise `max 0`. -/
def relu (x : List ℚ) : List ℚ := x.map (fun v => max 0 v)

/-- `nn.Dropout(rate)` applied to a vector.  In training mode (`training =
true`) each kept coordinate (mask `true`) is scaled by `1 / (1 - rate)` and
each dropped coordinate becomes `0`; in eval mode the input passes through
unchanged. -/
def dropoutRun (training : Bool) (rate : ℚ) (mask : List Bool) (x : List ℚ) :
    List ℚ :=
  if training then
    List.zipWith (fun keep v => if keep then v / (1 - rate) else 0) mask x
  else x

/-- The `DeepResnet` module structure (lines 94-116): an input projection, a
list of hidden residual blocks (`self.linears`, one per layer), and the output
projection `self.classifier`.  The dropout layer's behaviour is a function
parameter of `forward`, since it depends on the module's training mode and on
the sampled mask. -/
structure DeepResnet where
  input_layer : Linear
  linears : List Linear
  classifier : Linear
deriving Repr, DecidableEq

/-- `DeepResnet.forward` (lines 118-129): `hidden = input_layer(inputs)`;
`for resid in self.linears: hidden = hidden + dropout(relu(resid(hidden)))`;
return `classifier(hidden)`. -/
def DeepResnet.forward (net : DeepResnet) (dropout : List ℚ → List ℚ)
    (inputs : List ℚ) : List ℚ :=
  let hidden := net.input_layer.apply inputs
  let hidden := net.linears.foldl
    (fun h resid => vadd h (dropout (relu (resid.apply h)))) hidden
  net.classifier.apply hidden

/-- The spec's description of the hidden-state recursion: starting from the
initial hidden state, traverse the residual blocks in order, each contributing
`hidden + dropout(relu(block(hidden)))`. -/
def hiddenIter (dropout : List ℚ → List ℚ) : List Linear → List ℚ → List ℚ
  | [], h => h
  | b :: bs, h => hiddenIter dropout bs (vadd h (dropout (relu (b.apply h))))

/-- The spec's description of `forward`: input projection, the residual
recursion over all blocks, then the output projection, with no sigmoid. -/
def forwardSpec (net : DeepResnet) (dropout : List ℚ → List ℚ)
    (inputs : List ℚ) : List ℚ :=
  net.classifier.apply (hiddenIter dropout net.linears (net.input_layer.apply inputs))

/-! ### Uncertainty score (line 223) -/

/-- The scalar uncertainty heuristic `p * (1 - p)` used at line 223. -/
def uncertaintyOf (p : ℚ) : ℚ := p * (1 - p)

/-- Line 223, `resnet_uncertainty = resnet_probs * (1 - resnet_probs)`:
the heuristic applied elementwise to the probability array. -/
def resnet_uncertainty (resnet_probs : List ℚ) : List ℚ :=
  resnet_probs.map (fun p => p * (1 - p))

/-! ### The module training flag (`nn.Module.training`)

`nn.Module.__init__` sets `self.training = True`; only `module.train(mode)` /
`module.eval()` change it, and `nn.Dropout` is the identity whenever the flag
is `False`.  The script is a straight-line program, so the value of the flag
at each forward pass is determined by which mode calls precede that pass. -/

/-- A call that touches the model's training flag. -/
inductive ModeCall where
  | callTrain : ModeCall
  | callEval : ModeCall
deriving Repr, DecidableEq

/-- Effect of a mode call on the training flag. -/
def modeStep (_flag : Bool) : ModeCall → Bool
  | .callTrain => true
  | .callEval => false

/-- The training flag after a sequence of mode calls, starting from the
`nn.Module` constructor's initial value `True`. -/
def trainingFlagAfter (calls : List ModeCall) : Bool :=
  calls.foldl modeStep true

/-- The mode calls the script performs on `resnet_model` before the training
loop's forward passes (lines 147-160): none — the script never calls
`resnet_model.train()` or `resnet_model.eval()`. -/
def callsBeforeTrainingLoop : List ModeCall := []

/-- The mode calls performed before line 209's
`resnet_logits = resnet_model(test_examples)`, whose output produces both
plotted surfaces: still none. -/
def callsBeforeTestGridForward : List ModeCall := []

/-! ### Frozen input layer and the optimizer (lines 136-160)

Autograd and `optim.Adam` are modelled at the level the claim needs: each
parameter tensor carries its value, its `.grad` slot (`none` when unset) and
its `requires_grad` flag, plus the per-parameter optimizer state `σ` (Adam's
`exp_avg`, `exp_avg_sq`, step count).  `loss.backward()` accumulates a
gradient into every parameter that requires grad and leaves the others
untouched; `optimizer.zero_grad()` resets every `.grad` to `None`;
`optimizer.step()` skips any parameter whose `.grad` is `None` (torch's Adam:
`if p.grad is None: continue`) and otherwise updates value and optimizer
state through the update rule `upd`. -/

/-- A parameter tensor as the optimizer sees it. -/
structure TParam (σ : Type) where
  value : List ℚ
  grad : Option (List ℚ)
  requiresGrad : Bool
  ostate : σ

/-- `loss.backward()` on one parameter, `g` the gradient autograd computed for
it: accumulated into `.grad` only when the parameter requires grad. -/
def backwardParam {σ : Type} (g : List ℚ) (p : TParam σ) : TParam σ :=
  if p.requiresGrad then
    { p with grad := some (match p.grad with | none => g | some h => vadd h g) }
  else p

/-- `optimizer.zero_grad()` on one parameter: the `.grad` slot is cleared. -/
def zeroGradParam {σ : Type} (p : TParam σ) : TParam σ :=
  { p with grad := none }

/-- `optimizer.step()` on one parameter: parameters whose `.grad` is `None`
are skipped; the rest are updated by the Adam rule `upd` (value, gradient and
optimizer state in, new value and state out). -/
def adamStepParam {σ : Type} (upd : List ℚ → List ℚ → σ → List ℚ × σ)
    (p : TParam σ) : TParam σ :=
  match p.grad with
  | none => p
  | some g => { p with value := (upd p.value g p.ostate).1,
                       ostate := (upd p.value g p.ostate).2 }

/-- The parameter tensors of `resnet_model`: input projection weight and bias,
the parameters of the six hidden blocks (and of dropout: none), and the
classifier weight and bias. -/
structure NetParams (σ : Type) where
  input_weight : TParam σ
  input_bias : TParam σ
  hidden : List (TParam σ)
  clf_weight : TParam σ
  clf_bias : TParam σ

/-- Lines 136-137: `for param in resnet_model.input_layer.parameters():
param.requires_grad = False`. -/
def freezeInputLayer {σ : Type} (n : NetParams σ) : NetParams σ :=
  { n with input_weight := { n.input_weight with requiresGrad := false },
           input_bias := { n.input_bias with requiresGrad := false } }

/-- The gradients `loss.backward()` produces for one minibatch: one vector per
parameter tensor.  How autograd computes them from the BCE loss is irrelevant
to the claims, so a training step is parametrized by the whole family. -/
structure NetGrads where
  input_weight : List ℚ
  input_bias : List ℚ
  hidden : List (List ℚ)
  clf_weight : List ℚ
  clf_bias : List ℚ

/-- `optimizer.zero_grad()` over the whole model (line 158). -/
def zeroGradAll {σ : Type} (n : NetParams σ) : NetParams σ :=
  ⟨zeroGradParam n.input_weight, zeroGradParam n.input_bias,
   n.hidden.map zeroGradParam, zeroGradParam n.clf_weight,
   zeroGradParam n.clf_bias⟩

/-- `loss.backward()` over the whole model (line 159). -/
def backwardAll {σ : Type} (g : NetGrads) (n : NetParams σ) : NetParams σ :=
  ⟨backwardParam g.input_weight n.input_weight,
   backwardParam g.input_bias n.input_bias,
   List.zipWith backwardParam g.hidden n.hidden,
   backwardParam g.clf_weight n.clf_weight,
   backwardParam g.clf_bias n.clf_bias⟩

/-- `optimizer.step()` over the whole model (line 160). -/
def adamStepAll {σ : Type} (upd : List ℚ → List ℚ → σ → List ℚ × σ)
    (n : NetParams σ) : NetParams σ :=
  ⟨adamStepParam upd n.input_weight, adamStepParam upd n.input_bias,
   n.hidden.map (adamStepParam upd), adamStepParam upd n.clf_weight,
   adamStepParam upd n.clf_bias⟩

/-- One optimizer step of the loop body (lines 154-160): the forward pass and
loss are pure, then `zero_grad`, `backward` (with the gradients `gradsOf`
autograd derives from the current parameters and the minibatch) and `step`. -/
def optimStep {σ β : Type} (upd : List ℚ → List ℚ → σ → List ℚ × σ)
    (gradsOf : NetParams σ → β → NetGrads) (n : NetParams σ) (batch : β) :
    NetParams σ :=
  adamStepAll upd (backwardAll (gradsOf n batch) (zeroGradAll n))

/-- The full training run (lines 147-160): all minibatches of all epochs in
order, each processed by `optimStep`. -/
def trainRun {σ β : Type} (upd : List ℚ → List ℚ → σ → List ℚ × σ)
    (gradsOf : NetParams σ → β → NetGrads) (epochBatches : List (List β))
    (n : NetParams σ) : NetParams σ :=
  epochBatches.foldl (fun m batches => batches.foldl (optimStep upd gradsOf) m) n

/-! ### The epoch loop and its bookkeeping (lines 147-170)

For the termination/reporting claim the minibatch body is abstracted to a
state transformer `step` that also returns the minibatch's `(loss, accuracy)`
pair; the epoch structure, the `losses`/`accs` accumulators and the printed
per-epoch averages are modelled exactly. -/

/-- The numbers printed at the end of one epoch (lines 166-170). -/
structure EpochLog where
  avg_loss : ℚ
  avg_acc : ℚ
deriving Repr, DecidableEq

/-- The inner minibatch loop of one epoch (lines 148-164): starting from
`losses = []`, `accs = []`, process each minibatch, appending its loss and
accuracy; return the final training state and the two stat lists. -/
def epochBody {τ β : Type} (step : τ → β → τ × (ℚ × ℚ)) (batches : List β)
    (st : τ) : τ × List ℚ × List ℚ :=
  batches.foldl
    (fun acc b =>
      let r := step acc.1 b
      (r.1, acc.2.1 ++ [r.2.1], acc.2.2 ++ [r.2.2]))
    (st, [], [])

/-- One full epoch (lines 147-170): run the minibatch loop, then report
`avg_loss = sum(losses) / len(losses)` and `avg_acc = sum(accs) / len(accs)`. -/
def runEpoch {τ β : Type} (step : τ → β → τ × (ℚ × ℚ)) (batches : List β)
    (st : τ) : τ × EpochLog :=
  let r := epochBody step batches st
  (r.1, ⟨r.2.1.sum / r.2.1.length, r.2.2.sum / r.2.2.length⟩)

/-- The whole training loop, `for epoch in range(num_epochs)` (line 147): the
epochs run unconditionally in order — there is no early exit — and each
contributes one `EpochLog`.  `batchesOf e` is the shuffled minibatch partition
the dataloader yields in epoch `e`. -/
def trainingLoop {τ β : Type} (step : τ → β → τ × (ℚ × ℚ))
    (batchesOf : ℕ → List β) (st : τ) (numEpochs : ℕ) : τ × List EpochLog :=
  (List.range numEpochs).foldl
    (fun acc e =>
      let r := runEpoch step (batchesOf e) acc.1
      (r.1, acc.2 ++ [r.2]))
    (st, [])

/-- The training state just before epoch `e` begins (spec side: epoch `e`
sees the state left by the first `e` epochs). -/
def stateBeforeEpoch {τ β : Type} (step : τ → β → τ × (ℚ × ℚ))
    (batchesOf : ℕ → List β) (st : τ) : ℕ → τ
  | 0 => st
  | e + 1 => (runEpoch step (batchesOf e) (stateBeforeEpoch step batchesOf st e)).1

/-- Spec side: the `(loss, accuracy)` pair of each minibatch of an epoch, in
processing order, written as a direct recursion. -/
def minibatchStats {τ β : Type} (step : τ → β → τ × (ℚ × ℚ)) :
    List β → τ → List (ℚ × ℚ)
  | [], _ => []
  | b :: bs, st => (step st b).2 :: minibatchStats step bs (step st b).1

/-- Spec side: the training state after all minibatches of one epoch. -/
def minibatchEnd {τ β : Type} (step : τ → β → τ × (ℚ × ℚ)) :
    List β → τ → τ
  | [], st => st
  | b :: bs, st => minibatchEnd step bs (step st b).1

/-- The x-axis sample values of the default test grid (line 57 at the
defaults). -/
def gridXs : List ℚ := linspace DEFAULT_X_RANGE.1 DEFAULT_X_RANGE.2 DEFAULT_N_GRID

/-- The y-axis sample values of the default test grid (line 58 at the
defaults). -/
def gridYs : List ℚ := linspace DEFAULT_Y_RANGE.1 DEFAULT_Y_RANGE.2 DEFAULT_N_GRID

/-- The default test grid, `make_testing_data()` as called at line 67. -/
def testGrid : List (ℚ × ℚ) :=
  make_testing_data DEFAULT_X_RANGE DEFAULT_Y_RANGE DEFAULT_N_GRID

/-! ### Global seeding and determinism (lines 25-26)

The two RNGs (`np.random`, `torch`) are modelled as explicit states of
abstract types threaded through the program.  `np.random.seed(0)` /
`torch.manual_seed(0)` replace the corresponding state by a pure function of
the seed; every random draw (moons noise, OOD sample, parameter
initialization, dataloader shuffling, dropout masks) advances its RNG
deterministically and appends the drawn value to the run's trace.  A run
starts from an arbitrary ambient pair of RNG states — this is what differs
between two executions of the script. -/

/-- One RNG-relevant event of the script, in program order. -/
inductive RngOp where
  | seedNp (s : ℕ) : RngOp
  | seedTorch (s : ℕ) : RngOp
  | drawNp : RngOp
  | drawTorch : RngOp
deriving Repr, DecidableEq

/-- The deterministic semantics of one RNG instance: `ofSeed` builds the state
from a seed, `next` yields a drawn value and the successor state. -/
structure RngSemantics (ρ : Type) where
  ofSeed : ℕ → ρ
  next : ρ → ℕ × ρ

/-- Run a sequence of RNG events from ambient initial states `np0`, `t0`,
collecting the trace of drawn values (which determines the training data, the
initialization and the whole training trajectory). -/
def runRng {ρ₁ ρ₂ : Type} (np : RngSemantics ρ₁) (tc : RngSemantics ρ₂) :
    List RngOp → ρ₁ → ρ₂ → List ℕ
  | [], _, _ => []
  | .seedNp s :: ops, _, t0 => runRng np tc ops (np.ofSeed s) t0
  | .seedTorch s :: ops, np0, _ => runRng np tc ops np0 (tc.ofSeed s)
  | .drawNp :: ops, np0, t0 =>
      (np.next np0).1 :: runRng np tc ops (np.next np0).2 t0
  | .drawTorch :: ops, np0, t0 =>
      (tc.next t0).1 :: runRng np tc ops np0 (tc.next t0).2

/-- The script's RNG events: `np.random.seed(0)` then `torch.manual_seed(0)`
(lines 25-26) before anything else; everything after is a draw — no later
reseeding anywhere in the file. -/
def scriptRngOps (draws : List RngOp) : List RngOp :=
  RngOp.seedNp 0 :: RngOp.seedTorch 0 :: draws

/-! ### Helper lemmas -/

theorem le_foldl_max (a : ℚ) (t : List ℚ) : a ≤ t.foldl max a := by
  induction t generalizing a with
  | nil => exact le_refl a
  | cons b t ih => exact le_trans (le_max_left a b) (ih (max a b))

theorem mem_le_foldl_max {x : ℚ} {t : List ℚ} (hx : x ∈ t) (a : ℚ) :
    x ≤ t.foldl max a := by
  induction t generalizing a with
  | nil => cases hx
  | cons b t ih =>
    rcases List.mem_cons.mp hx with h | h
    · subst h
      exact le_trans (le_max_right a x) (le_foldl_max (max a x) t)
    · exact ih h (max a b)

theorem le_maxOf {x : ℚ} {u : List ℚ} (hx : x ∈ u) : x ≤ maxOf u := by
  cases u with
  | nil => cases hx
  | cons h t =>
    rcases List.mem_cons.mp hx with hh | hh
    · subst hh; exact le_foldl_max x t
    · exact mem_le_foldl_max hh h

theorem foldl_max_map_div (M : ℚ) (hM : 0 ≤ M) (t : List ℚ) (a : ℚ) :
    (t.map (fun x => x / M)).foldl max (a / M) = (t.foldl max a) / M := by
  induction t generalizing a with
  | nil => rfl
  | cons b t ih =>
    simp only [List.map_cons, List.foldl_cons]
    rw [max_div_div_right hM a b, ih (max a b)]

theorem maxOf_map_div (M : ℚ) (hM : 0 ≤ M) (u : List ℚ) (hu : u ≠ []) :
    maxOf (u.map (fun x => x / M)) = maxOf u / M := by
  cases u with
  | nil => exact absurd rfl hu
  | cons h t => exact foldl_max_map_div M hM t h

theorem foldl_preserve {α β : Type} (P : α → Prop) (f : α → β → α)
    (hf : ∀ a b, P a → P (f a b)) :
    ∀ (l : List β) (a : α), P a → P (l.foldl f a) := by
  intro l
  induction l with
  | nil => intro a ha; exact ha
  | cons b t ih => intro a ha; exact ih (f a b) (hf a b ha)

theorem zip_self_map_const {α β : Type} (x : List α) (b : β) :
    List.zip x (x.map (fun _ => b)) = x.map (fun a => (a, b)) := by
  induction x with
  | nil => rfl
  | cons a t ih => simp only [List.map_cons, List.zip_cons_cons, ih]

theorem zip_meshgrid (x y : List ℚ) :
    List.zip (meshgridX x y).flatten (meshgridY x y).flatten =
      y.flatMap (fun b => x.map (fun a => (a, b))) := by
  induction y with
  | nil => rfl
  | cons b ys ih =>
    simp only [meshgridX, meshgridY, List.map_cons, List.flatten_cons,
      List.flatMap_cons] at *
    rw [List.zip_append (by simp), ih, zip_self_map_const]

theorem foldl_hiddenIter (d : List ℚ → List ℚ) (bs : List Linear) (h : List ℚ) :
    bs.foldl (fun h resid => vadd h (d (relu (resid.apply h)))) h = hiddenIter d bs h := by
  induction bs generalizing h with
  | nil => rfl
  | cons b bs ih => simp only [List.foldl_cons, hiddenIter, ih]

theorem optionTraverse_some {α β : Type} (f : α → Option β) (g : α → β)
    (hf : ∀ x, f x = some (g x)) :
    ∀ l : List α, optionTraverse f l = some (l.map g) := by
  intro l
  induction l with
  | nil => rfl
  | cons a t ih => simp [optionTraverse, hf a, ih]

theorem linspace_length (a b : ℚ) (n : ℕ) : (linspace a b n).length = n := by
  simp [linspace]

theorem linspace_getD {a b : ℚ} {n j : ℕ} (h : j < n) :
    (linspace a b n).getD j 0 = a + (b - a) * j / ((n : ℚ) - 1) := by
  unfold linspace
  rw [List.getD_eq_getElem _ _ (by simpa using h)]
  simp

theorem linspace_nodup (a b : ℚ) (n : ℕ) (hab : a ≠ b) (hn : 2 ≤ n) :
    (linspace a b n).Nodup := by
  have hba : b - a ≠ 0 := sub_ne_zero.mpr (Ne.symm hab)
  have hn1 : ((n : ℚ) - 1) ≠ 0 := by
    have h2 : (2 : ℚ) ≤ (n : ℚ) := by exact_mod_cast hn
    intro h0
    linarith
  refine List.Nodup.map ?_ (List.nodup_range n)
  intro i j hij
  have h2 : (b - a) * (i : ℚ) / ((n : ℚ) - 1) = (b - a) * (j : ℚ) / ((n : ℚ) - 1) := by
    have := hij
    linarith [hij]
  have h4 : (b - a) * (i : ℚ) = (b - a) * (j : ℚ) := by
    have h3 := congrArg (fun x : ℚ => x * ((n : ℚ) - 1)) h2
    simpa [div_mul_cancel₀, hn1] using h3
  have h5 : (i : ℚ) = (j : ℚ) := mul_left_cancel₀ hba h4
  exact_mod_cast h5

theorem count_pair_map (xs : List ℚ) (a b : ℚ) :
    (xs.map (fun x => (x, b))).count (a, b) = xs.count a := by
  induction xs with
  | nil => rfl
  | cons x xs ih =>
    simp [List.count_cons, ih, Prod.ext_iff]

theorem count_pair_map_ne (xs : List ℚ) (a b b' : ℚ) (h : b' ≠ b) :
    (xs.map (fun x => (x, b'))).count (a, b) = 0 := by
  rw [List.count_eq_zero]
  intro hmem
  obtain ⟨x, _, he⟩ := List.mem_map.mp hmem
  exact h (congrArg Prod.snd he)

theorem sum_map_ite_one {b : ℚ} {ys : List ℚ} (hnd : ys.Nodup) (hb : b ∈ ys)
    (c : ℕ) : (ys.map (fun y => if y = b then c else 0)).sum = c := by
  induction ys with
  | nil => cases hb
  | cons y ys ih =>
    rw [List.nodup_cons] at hnd
    rcases List.mem_cons.mp hb with rfl | hb2
    · simp only [List.map_cons, List.sum_cons, if_pos rfl]
      have hz : (ys.map (fun y' => if y' = b then c else 0)).sum = 0 := by
        apply List.sum_eq_zero
        intro x hx
        obtain ⟨y', hy', he⟩ := List.mem_map.mp hx
        rw [← he]
        by_cases hyb : y' = b
        · exact absurd (hyb ▸ hy') hnd.1
        · simp [hyb]
      rw [hz]
      simp
    · have hyb : y ≠ b := fun h => hnd.1 (h ▸ hb2)
      simp only [List.map_cons, List.sum_cons, if_neg hyb, ih hnd.2 hb2,
        Nat.zero_add]

theorem map_range_getD {α : Type} (l : List α) (d : α) :
    (List.range l.length).map (fun k => l.getD k d) = l := by
  apply List.ext_getElem
  · simp
  · intro i h1 h2
    simp [List.getD_eq_getElem _ _ h2, List.getElem?_eq_getElem h2]

theorem moonLabelsBase_getD_lt {s k : ℕ} (h : k < s) :
    (moonLabelsBase s).getD k 0 = 0 := by
  unfold moonLabelsBase
  rw [List.getD_eq_getElem _ _ (by simp; omega)]
  rw [List.getElem_append_left (by simpa using h)]
  exact List.getElem_replicate _ _

theorem moonLabelsBase_getD_ge {s k : ℕ} (h1 : s ≤ k) (h2 : k < 2 * s) :
    (moonLabelsBase s).getD k 0 = 1 := by
  unfold moonLabelsBase
  rw [List.getD_eq_getElem _ _ (by simp; omega)]
  rw [List.getElem_append_right (by simpa using h1)]
  exact List.getElem_replicate _ _

theorem moonLabelsBase_getD_cases (s k : ℕ) :
    (moonLabelsBase s).getD k 0 = 0 ∨ (moonLabelsBase s).getD k 0 = 1 := by
  by_cases h : k < s
  · exact Or.inl (moonLabelsBase_getD_lt h)
  · by_cases h2 : k < 2 * s
    · exact Or.inr (moonLabelsBase_getD_ge (by omega) h2)
    · left
      rw [List.getD_eq_default _ _ (by simp [moonLabelsBase]; omega)]

theorem testGrid_eq :
    testGrid = gridYs.flatMap (fun b => gridXs.map (fun a => (a, b))) := by
  unfold testGrid make_testing_data gridXs gridYs
  exact zip_meshgrid _ _

/-! ### The claims -/

/-- C2: `DeepResnet.forward` first applies the input projection, then walks
the residual blocks in order with `hidden = hidden + dropout(relu(block(hidden)))`,
and returns the classifier applied to the final hidden state — the raw logit,
with no sigmoid: for every network, dropout behaviour, and input it agrees
with `forwardSpec`, the direct transcription of the spec's description. -/
theorem forward_matches_spec (net : DeepResnet) (d : List ℚ → List ℚ)
    (inputs : List ℚ) : net.forward d inputs = forwardSpec net d inputs :=
  congrArg (fun v => net.classifier.apply v)
    (foldl_hiddenIter d net.linears (net.input_layer.apply inputs))

/-- C3: the code contradicts the claim's evaluation half.  The script never
calls `eval()` (or `train()`) on `resnet_model`, so the `nn.Module` training
flag — initialized to `True` — is still `True` at line 209's forward pass over
the test grid, the single forward pass behind both plotted surfaces; a dropout
layer in training mode is not the identity (it would be in eval mode), so
dropout is active there.  The training-loop half of the claim does hold: those
forward passes also run with the flag `True`. -/
theorem test_grid_forward_in_training_mode :
    trainingFlagAfter callsBeforeTestGridForward = true ∧
    trainingFlagAfter callsBeforeTrainingLoop = true ∧
    (∀ (rate : ℚ) (mask : List Bool) (x : List ℚ), dropoutRun false rate mask x = x) ∧
    dropoutRun true dropout_rate [false, true] [1, 1] ≠ [1, 1] := by
  refine ⟨rfl, rfl, fun rate mask x => rfl, ?_⟩
  simp [dropoutRun, dropout_rate]

/-- C7: over the probability array, every elementwise uncertainty score
`p * (1 - p)` is at most the score of `p = 1/2`; for `p` in `[0, 1]` the
score equals the maximum exactly at `p = 1/2` and vanishes exactly at
`p = 0` or `p = 1`. -/
theorem uncertainty_max_at_half (probs : List ℚ)
    (_h : ∀ p ∈ probs, 0 ≤ p ∧ p ≤ 1) :
    (∀ q ∈ resnet_uncertainty probs, q ≤ uncertaintyOf (1/2)) ∧
    (∀ p ∈ probs, (uncertaintyOf p = uncertaintyOf (1/2) ↔ p = 1/2) ∧
      (uncertaintyOf p = 0 ↔ p = 0 ∨ p = 1)) := by
  constructor
  · intro q hq
    obtain ⟨p, _, rfl⟩ := List.mem_map.mp hq
    show p * (1 - p) ≤ uncertaintyOf (1/2)
    unfold uncertaintyOf
    nlinarith [sq_nonneg (p - 1/2)]
  · intro p _
    unfold uncertaintyOf
    constructor
    · constructor
      · intro he
        have h2 : (p - 1/2) ^ 2 = 0 := by ring_nf; ring_nf at he; linarith
        have h3 : p - 1/2 = 0 := by
          exact pow_eq_zero_iff (n := 2) (by norm_num) |>.mp h2
        linarith
      · intro he; subst he; norm_num
    · constructor
      · intro he
        rcases mul_eq_zero.mp he with h0 | h1
        · exact Or.inl h0
        · exact Or.inr (by linarith)
      · rintro (rfl | rfl) <;> ring

/-- C8: both RNGs are seeded once at the start of the script, before any
random draw, so the trace of random values — and with it the training data,
the parameter initialization and the training trajectory — is the same for
any two runs, i.e. independent of the ambient RNG states the two processes
start from. -/
theorem script_rng_deterministic {ρ₁ ρ₂ : Type} (np : RngSemantics ρ₁)
    (tc : RngSemantics ρ₂) (draws : List RngOp) (np1 np2 : ρ₁) (t1 t2 : ρ₂) :
    runRng np tc (scriptRngOps draws) np1 t1 =
      runRng np tc (scriptRngOps draws) np2 t2 := rfl

/-- C6: for every score array handed to `plot_uncertainty_surface` by the
script — nonempty, elementwise nonnegative (class probabilities, resp.
`p*(1-p)` scores) with positive maximum — the normalized array plotted at
line 185 has maximum exactly `1` and every entry in `[0, 1]`. -/
theorem normalized_scores_max_one (u : List ℚ) (hne : u ≠ [])
    (hnn : ∀ x ∈ u, 0 ≤ x) (hpos : 0 < maxOf u) :
    maxOf (normalizeScores u) = 1 ∧
    ∀ y ∈ normalizeScores u, 0 ≤ y ∧ y ≤ 1 := by
  constructor
  · unfold normalizeScores
    rw [maxOf_map_div (maxOf u) hpos.le u hne]
    exact div_self (ne_of_gt hpos)
  · intro y hy
    obtain ⟨x, hx, rfl⟩ := List.mem_map.mp hy
    constructor
    · exact div_nonneg (hnn x hx) hpos.le
    · rw [div_le_one hpos]
      exact le_maxOf hx

/-- Witness for C6: the concrete nonnegative score array `[0, 1/2]` has
positive maximum, and its normalization has maximum exactly `1` with all
entries in `[0, 1]`. -/
theorem normalized_scores_max_one_witness :
    (([(0:ℚ), 1/2] : List ℚ) ≠ [] ∧ (∀ x ∈ [(0:ℚ), 1/2], 0 ≤ x) ∧
      0 < maxOf [(0:ℚ), 1/2]) ∧
    (maxOf (normalizeScores [(0:ℚ), 1/2]) = 1 ∧
      ∀ y ∈ normalizeScores [(0:ℚ), 1/2], 0 ≤ y ∧ y ≤ 1) := by
  have h1 : ([(0:ℚ), 1/2] : List ℚ) ≠ [] := by simp
  have h2 : ∀ x ∈ [(0:ℚ), 1/2], 0 ≤ x := by norm_num [List.forall_mem_cons]
  have h3 : 0 < maxOf [(0:ℚ), 1/2] := by norm_num [maxOf, max_def]
  exact ⟨⟨h1, h2, h3⟩, normalized_scores_max_one _ h1 h2 h3⟩

/-- C10: the unguarded division of line 185 is well defined whenever the
maximum score is strictly positive — the checked normalization then returns
exactly the unchecked one — and reaches a division by zero on every nonempty
score array whose maximum is `0`. -/
theorem normalize_division_guard :
    (∀ u : List ℚ, 0 < maxOf u →
      normalizeScoresChecked u = some (normalizeScores u)) ∧
    (∀ u : List ℚ, u ≠ [] → maxOf u = 0 → normalizeScoresChecked u = none) := by
  constructor
  · intro u hM
    unfold normalizeScoresChecked normalizeScores
    exact optionTraverse_some _ _ (fun x => by simp [div?, ne_of_gt hM]) u
  · intro u hne hM
    cases u with
    | nil => exact absurd rfl hne
    | cons h t =>
      unfold normalizeScoresChecked
      simp [optionTraverse, div?, hM]

/-- Witness for C10: the all-zero score array is nonempty with maximum `0`,
and the checked normalization indeed fails on it; a positive-maximum array
normalizes successfully. -/
theorem normalize_division_guard_witness :
    (maxOf [(0:ℚ), 0, 0] = 0 ∧ normalizeScoresChecked [(0:ℚ), 0, 0] = none) ∧
    (0 < maxOf [(1:ℚ), 2] ∧
      normalizeScoresChecked [(1:ℚ), 2] = some (normalizeScores [(1:ℚ), 2])) :=
  ⟨⟨by simp [maxOf], normalize_division_guard.2 [0, 0, 0] (by simp) (by simp [maxOf])⟩,
   ⟨by norm_num [maxOf, max_def], normalize_division_guard.1 [1, 2] (by norm_num [maxOf, max_def])⟩⟩

/-- C1: after `freezeInputLayer` (lines 136-137) the input projection's
weight and bias values survive the whole training run unchanged, for every
Adam update rule, every gradient function, and every epoch/minibatch
schedule — `zero_grad` keeps their `.grad` empty, `backward` skips them
because `requires_grad` is `False`, and Adam skips parameters without a
gradient.  Quantifying over all `epochBatches` settles every intermediate
state as well: the state after any epoch and any optimizer step is the
final state of the truncated schedule. -/
theorem input_layer_params_frozen {σ β : Type}
    (upd : List ℚ → List ℚ → σ → List ℚ × σ)
    (gradsOf : NetParams σ → β → NetGrads)
    (epochBatches : List (List β)) (n0 : NetParams σ) :
    (trainRun upd gradsOf epochBatches (freezeInputLayer n0)).input_weight.value
        = n0.input_weight.value ∧
    (trainRun upd gradsOf epochBatches (freezeInputLayer n0)).input_bias.value
        = n0.input_bias.value := by
  have hstep : ∀ (m : NetParams σ) (b : β),
      (m.input_weight.value = n0.input_weight.value ∧
        m.input_weight.requiresGrad = false ∧
        m.input_bias.value = n0.input_bias.value ∧
        m.input_bias.requiresGrad = false) →
      ((optimStep upd gradsOf m b).input_weight.value = n0.input_weight.value ∧
        (optimStep upd gradsOf m b).input_weight.requiresGrad = false ∧
        (optimStep upd gradsOf m b).input_bias.value = n0.input_bias.value ∧
        (optimStep upd gradsOf m b).input_bias.requiresGrad = false) := by
    intro m b hm
    obtain ⟨h1, h2, h3, h4⟩ := hm
    simp [optimStep, adamStepAll, backwardAll, zeroGradAll, adamStepParam,
      backwardParam, zeroGradParam, h1, h2, h3, h4]
  have hrun := foldl_preserve
    (fun m : NetParams σ =>
      m.input_weight.value = n0.input_weight.value ∧
        m.input_weight.requiresGrad = false ∧
        m.input_bias.value = n0.input_bias.value ∧
        m.input_bias.requiresGrad = false)
    (fun m batches => batches.foldl (optimStep upd gradsOf) m)
    (fun m batches hm => foldl_preserve _ (optimStep upd gradsOf) hstep batches m hm)
    epochBatches (freezeInputLayer n0)
    (by simp [freezeInputLayer])
  exact ⟨hrun.1, hrun.2.2.1⟩

/-- C9 auxiliary: the accumulator-passing minibatch fold of lines 148-164
computes the straightforward list of per-minibatch stats. -/
theorem epochFold_acc {τ β : Type} (step : τ → β → τ × (ℚ × ℚ)) :
    ∀ (batches : List β) (st : τ) (l0 a0 : List ℚ),
      batches.foldl
        (fun acc b =>
          let r := step acc.1 b
          (r.1, acc.2.1 ++ [r.2.1], acc.2.2 ++ [r.2.2]))
        (st, l0, a0) =
      (minibatchEnd step batches st,
        l0 ++ (minibatchStats step batches st).map Prod.fst,
        a0 ++ (minibatchStats step batches st).map Prod.snd) := by
  intro batches
  induction batches with
  | nil => intro st l0 a0; simp [minibatchEnd, minibatchStats]
  | cons b bs ih =>
    intro st l0 a0
    simp only [List.foldl_cons, minibatchEnd, minibatchStats, List.map_cons, ih]
    simp [List.append_assoc]

/-- C9 auxiliary: the epoch log reported at lines 166-170 is the average of
the per-minibatch losses and accuracies. -/
theorem runEpoch_log {τ β : Type} (step : τ → β → τ × (ℚ × ℚ))
    (batches : List β) (st : τ) :
    (runEpoch step batches st).2 =
      ⟨((minibatchStats step batches st).map Prod.fst).sum
          / (minibatchStats step batches st).length,
        ((minibatchStats step batches st).map Prod.snd).sum
          / (minibatchStats step batches st).length⟩ := by
  unfold runEpoch epochBody
  rw [epochFold_acc]
  simp

/-- C9 auxiliary: the whole loop, unrolled — the final state is the state
past the last epoch and the logs are, in order, the per-epoch reports. -/
theorem trainingLoop_unrolled {τ β : Type} (step : τ → β → τ × (ℚ × ℚ))
    (batchesOf : ℕ → List β) (st : τ) :
    ∀ n : ℕ,
      trainingLoop step batchesOf st n =
        (stateBeforeEpoch step batchesOf st n,
          (List.range n).map
            (fun e => (runEpoch step (batchesOf e)
              (stateBeforeEpoch step batchesOf st e)).2)) := by
  intro n
  induction n with
  | zero => rfl
  | succ n ih =>
    unfold trainingLoop at ih ⊢
    rw [List.range_succ, List.foldl_append, ih]
    simp [stateBeforeEpoch, List.range_succ]

/-- C9: the training loop terminates after exactly the fixed 100 epochs —
one log per epoch, no early exit for any training state, minibatch body or
dataloader schedule — and the log of each epoch `e` reports the average loss
and average accuracy over that epoch's minibatches. -/
theorem training_loop_fixed_epochs {τ β : Type} (step : τ → β → τ × (ℚ × ℚ))
    (batchesOf : ℕ → List β) (st : τ) :
    (trainingLoop step batchesOf st num_epochs).2.length = 100 ∧
    (∀ e : ℕ, e < num_epochs →
      (trainingLoop step batchesOf st num_epochs).2.getD e ⟨0, 0⟩ =
        ⟨((minibatchStats step (batchesOf e)
              (stateBeforeEpoch step batchesOf st e)).map Prod.fst).sum
            / (minibatchStats step (batchesOf e)
              (stateBeforeEpoch step batchesOf st e)).length,
          ((minibatchStats step (batchesOf e)
              (stateBeforeEpoch step batchesOf st e)).map Prod.snd).sum
            / (minibatchStats step (batchesOf e)
              (stateBeforeEpoch step batchesOf st e)).length⟩) := by
  rw [trainingLoop_unrolled]
  constructor
  · simp [num_epochs]
  · intro e he
    rw [List.getD_eq_getElem _ _ (by simpa using he)]
    rw [List.getElem_map]
    rw [List.getElem_range]
    exact runEpoch_log step (batchesOf e) (stateBeforeEpoch step batchesOf st e)

/-- Witness for C9: a concrete run — constant state, two fixed minibatches
per epoch — has exactly 100 epoch logs, and epoch 0 reports the average of
its minibatch stats. -/
theorem training_loop_fixed_epochs_witness :
    (0 < num_epochs) ∧
    (trainingLoop (fun (s : ℚ) (b : ℚ) => (s, (b, b))) (fun _ => [1, 2]) 0
        num_epochs).2.length = 100 ∧
    (trainingLoop (fun (s : ℚ) (b : ℚ) => (s, (b, b))) (fun _ => [1, 2]) 0
        num_epochs).2.getD 0 ⟨0, 0⟩ =
      ⟨((minibatchStats (fun (s : ℚ) (b : ℚ) => (s, (b, b))) [1, 2]
            (stateBeforeEpoch (fun (s : ℚ) (b : ℚ) => (s, (b, b)))
              (fun _ => [1, 2]) 0 0)).map Prod.fst).sum
          / (minibatchStats (fun (s : ℚ) (b : ℚ) => (s, (b, b))) [1, 2]
            (stateBeforeEpoch (fun (s : ℚ) (b : ℚ) => (s, (b, b)))
              (fun _ => [1, 2]) 0 0)).length,
        ((minibatchStats (fun (s : ℚ) (b : ℚ) => (s, (b, b))) [1, 2]
            (stateBeforeEpoch (fun (s : ℚ) (b : ℚ) => (s, (b, b)))
              (fun _ => [1, 2]) 0 0)).map Prod.snd).sum
          / (minibatchStats (fun (s : ℚ) (b : ℚ) => (s, (b, b))) [1, 2]
            (stateBeforeEpoch (fun (s : ℚ) (b : ℚ) => (s, (b, b)))
              (fun _ => [1, 2]) 0 0)).length⟩ :=
  ⟨by norm_num [num_epochs],
   (training_loop_fixed_epochs (fun (s : ℚ) (b : ℚ) => (s, (b, b)))
      (fun _ => [1, 2]) 0).1,
   (training_loop_fixed_epochs (fun (s : ℚ) (b : ℚ) => (s, (b, b)))
      (fun _ => [1, 2]) 0).2 0 (by norm_num [num_epochs])⟩

/-- C4: the default call of `make_testing_data` returns exactly
`10000 = 100 * 100` 2D points; each point's x-coordinate is one of the 100
evenly spaced linspace values from `-3.5` to `3.5` (value `j` being
`-7/2 + 7*j/99`) and its y-coordinate one of the 100 evenly spaced values
from `-2.5` to `2.5` (value `i` being `-5/2 + 5*i/99`), and every such
coordinate pair occurs exactly once in the returned list. -/
theorem make_testing_data_default_grid :
    testGrid.length = 10000 ∧
    gridXs.length = 100 ∧ gridYs.length = 100 ∧
    (∀ a ∈ gridXs, ∀ b ∈ gridYs, testGrid.count (a, b) = 1) ∧
    (∀ p ∈ testGrid, p.1 ∈ gridXs ∧ p.2 ∈ gridYs) ∧
    (∀ j : ℕ, j < 100 → gridXs.getD j 0 = -7/2 + 7 * (j : ℚ) / 99) ∧
    (∀ i : ℕ, i < 100 → gridYs.getD i 0 = -5/2 + 5 * (i : ℚ) / 99) := by
  have hxnd : gridXs.Nodup := linspace_nodup _ _ _
    (by norm_num [DEFAULT_X_RANGE]) (by norm_num [DEFAULT_N_GRID])
  have hynd : gridYs.Nodup := linspace_nodup _ _ _
    (by norm_num [DEFAULT_Y_RANGE]) (by norm_num [DEFAULT_N_GRID])
  refine ⟨?_, ?_, ?_, ?_, ?_, ?_, ?_⟩
  · rw [testGrid_eq, List.length_flatMap]
    have h1 : List.map (List.length ∘ fun b => gridXs.map fun a => (a, b)) gridYs
        = List.map (fun _ => 100) gridYs :=
      List.map_congr_left (fun b _ => by
        simp [gridXs, linspace_length, DEFAULT_N_GRID])
    rw [h1, List.map_const', List.sum_replicate]
    simp [gridYs, linspace_length, DEFAULT_N_GRID]
  · exact linspace_length _ _ _
  · exact linspace_length _ _ _
  · intro a ha b hb
    rw [testGrid_eq, List.count_flatMap]
    have hrow : ∀ b' ∈ gridYs,
        (List.count (a, b) ∘ fun b'' => gridXs.map fun a' => (a', b'')) b'
          = (fun y => if y = b then (1 : ℕ) else 0) b' := by
      intro b' _
      by_cases hbb : b' = b
      · subst hbb
        show List.count (a, b') (gridXs.map fun a' => (a', b'))
          = if b' = b' then (1 : ℕ) else 0
        rw [count_pair_map, if_pos rfl]
        exact List.count_eq_one_of_mem hxnd ha
      · show List.count (a, b) (gridXs.map fun a' => (a', b'))
          = if b' = b then (1 : ℕ) else 0
        rw [if_neg hbb]
        exact count_pair_map_ne gridXs a b b' hbb
    rw [List.map_congr_left hrow]
    exact sum_map_ite_one hynd hb 1
  · intro p hp
    rw [testGrid_eq] at hp
    obtain ⟨b, hb, hp2⟩ := List.mem_flatMap.mp hp
    obtain ⟨a, ha, he⟩ := List.mem_map.mp hp2
    subst he
    exact ⟨ha, hb⟩
  · intro j hj
    rw [show gridXs = linspace (-7/2) (7/2) 100 from rfl, linspace_getD hj]
    norm_num
  · intro i hi
    rw [show gridYs = linspace (-5/2) (5/2) 100 from rfl, linspace_getD hi]
    norm_num


/-- Witness for C4: the lattice corner `(-3.5, -2.5)` is built from grid
values present in both linspaces and occurs exactly once in the default test
grid; the value formula applies at index `0`. -/
theorem make_testing_data_default_grid_witness :
    ((-7/2 : ℚ) ∈ gridXs ∧ (-5/2 : ℚ) ∈ gridYs ∧
      testGrid.count (-7/2, -5/2) = 1) ∧
    (0 < 100 ∧ gridXs.getD 0 0 = -7/2 + 7 * ((0 : ℕ) : ℚ) / 99) := by
  have hlenx : 0 < gridXs.length := by
    simp [gridXs, linspace_length, DEFAULT_N_GRID]
  have hleny : 0 < gridYs.length := by
    simp [gridYs, linspace_length, DEFAULT_N_GRID]
  have hx0 : gridXs.getD 0 0 = -7/2 := by
    rw [show gridXs = linspace (-7/2) (7/2) 100 from rfl,
      linspace_getD (by norm_num : (0:ℕ) < 100)]
    norm_num
  have hy0 : gridYs.getD 0 0 = -5/2 := by
    rw [show gridYs = linspace (-5/2) (5/2) 100 from rfl,
      linspace_getD (by norm_num : (0:ℕ) < 100)]
    norm_num
  have hxm : (-7/2 : ℚ) ∈ gridXs := by
    rw [← hx0, List.getD_eq_getElem _ _ hlenx]
    exact List.getElem_mem hlenx
  have hym : (-5/2 : ℚ) ∈ gridYs := by
    rw [← hy0, List.getD_eq_getElem _ _ hleny]
    exact List.getElem_mem hleny
  refine ⟨⟨hxm, hym, ?_⟩, ⟨by norm_num, ?_⟩⟩
  · exact make_testing_data_default_grid.2.2.2.1 (-7/2) hxm (-5/2) hym
  · exact make_testing_data_default_grid.2.2.2.2.2.1 0 (by norm_num)

/-- C5: for any shuffle permutation and any realization of the noisy moon
coordinates, `make_training_data(500)` returns exactly 1000 labeled points;
every label is `0` or `1` with exactly 500 of each; and each returned point
is its moon point shifted by `(-0.1, 0.2)` when its label is `0` and by
`(0.1, -0.2)` when its label is `1`. -/
theorem make_training_data_props (basePoint : ℕ → ℚ × ℚ) (perm : List ℕ)
    (hperm : perm.Perm (List.range (2 * 500))) :
    (make_training_data 500 basePoint perm).1.length = 1000 ∧
    (make_training_data 500 basePoint perm).2.length = 1000 ∧
    (∀ l ∈ (make_training_data 500 basePoint perm).2, l = 0 ∨ l = 1) ∧
    (make_training_data 500 basePoint perm).2.count 0 = 500 ∧
    (make_training_data 500 basePoint perm).2.count 1 = 500 ∧
    (∀ k : ℕ, k < 1000 →
      ((make_training_data 500 basePoint perm).2.getD k 0 = 0 →
        (make_training_data 500 basePoint perm).1.getD k (0, 0) =
          ((basePoint (perm.getD k 0)).1 + (-1/10),
            (basePoint (perm.getD k 0)).2 + 2/10)) ∧
      ((make_training_data 500 basePoint perm).2.getD k 0 = 1 →
        (make_training_data 500 basePoint perm).1.getD k (0, 0) =
          ((basePoint (perm.getD k 0)).1 + 1/10,
            (basePoint (perm.getD k 0)).2 + (-2/10)))) := by
  have hlp : perm.length = 1000 := by simpa using hperm.length_eq
  have hlab : (make_training_data 500 basePoint perm).2
      = perm.map (fun k => (moonLabelsBase 500).getD k 0) := rfl
  have hex : (make_training_data 500 basePoint perm).1
      = List.zipWith
          (fun l (p : ℚ × ℚ) => if l = 1 then (p.1 + 1/10, p.2 + (-2/10)) else p)
          (perm.map fun k => (moonLabelsBase 500).getD k 0)
          (List.zipWith
            (fun l (p : ℚ × ℚ) => if l = 0 then (p.1 + (-1/10), p.2 + 2/10) else p)
            (perm.map fun k => (moonLabelsBase 500).getD k 0)
            (perm.map basePoint)) := rfl
  have hperm2 : (perm.map fun k => (moonLabelsBase 500).getD k 0).Perm
      (moonLabelsBase 500) := by
    have h1 := hperm.map (fun k => (moonLabelsBase 500).getD k 0)
    have hlen : (moonLabelsBase 500).length = 2 * 500 := by
      show (List.replicate 500 (0:ℚ) ++ List.replicate 500 1).length = 2 * 500
      rw [List.length_append, List.length_replicate, List.length_replicate]
    rw [show (2 * 500) = (moonLabelsBase 500).length from hlen.symm,
      map_range_getD] at h1
    exact h1
  refine ⟨?_, ?_, ?_, ?_, ?_, ?_⟩
  · rw [hex]
    simp [List.length_zipWith, hlp]
  · rw [hlab]
    simp [hlp]
  · intro l hl
    rw [hlab] at hl
    obtain ⟨k, _, rfl⟩ := List.mem_map.mp hl
    exact moonLabelsBase_getD_cases 500 k
  · rw [hlab, hperm2.count_eq]
    show (List.replicate 500 (0:ℚ) ++ List.replicate 500 1).count 0 = 500
    rw [List.count_append, List.count_replicate, List.count_replicate]
    norm_num
  · rw [hlab, hperm2.count_eq]
    show (List.replicate 500 (0:ℚ) ++ List.replicate 500 1).count 1 = 500
    rw [List.count_append, List.count_replicate, List.count_replicate]
    norm_num
  · intro k hk
    have hkp : k < perm.length := by omega
    have hkL : k < (perm.map fun j => (moonLabelsBase 500).getD j 0).length := by
      simp [hlp]; omega
    have hkZ2 : k <
        (List.zipWith
          (fun l (p : ℚ × ℚ) => if l = 1 then (p.1 + 1/10, p.2 + (-2/10)) else p)
          (perm.map fun j => (moonLabelsBase 500).getD j 0)
          (List.zipWith
            (fun l (p : ℚ × ℚ) => if l = 0 then (p.1 + (-1/10), p.2 + 2/10) else p)
            (perm.map fun j => (moonLabelsBase 500).getD j 0)
            (perm.map basePoint))).length := by
      simp [List.length_zipWith, hlp]; omega
    have hlabk : (make_training_data 500 basePoint perm).2.getD k 0
        = (moonLabelsBase 500).getD (perm.getD k 0) 0 := by
      rw [hlab, List.getD_eq_getElem _ _ hkL, List.getElem_map,
        ← List.getD_eq_getElem perm 0 hkp]
    have hexk : (make_training_data 500 basePoint perm).1.getD k (0, 0)
        = (fun l (p : ℚ × ℚ) => if l = 1 then (p.1 + 1/10, p.2 + (-2/10)) else p)
            ((moonLabelsBase 500).getD (perm.getD k 0) 0)
            ((fun l (p : ℚ × ℚ) => if l = 0 then (p.1 + (-1/10), p.2 + 2/10) else p)
              ((moonLabelsBase 500).getD (perm.getD k 0) 0)
              (basePoint (perm.getD k 0))) := by
      rw [hex, List.getD_eq_getElem _ _ hkZ2, List.getElem_zipWith,
        List.getElem_zipWith, List.getElem_map, List.getElem_map,
        ← List.getD_eq_getElem perm 0 hkp]
    constructor
    · intro h0
      rw [hlabk] at h0
      rw [hexk, h0]
      norm_num
    · intro h1
      rw [hlabk] at h1
      rw [hexk, h1]
      norm_num

set_option maxRecDepth 4000 in
/-- Witness for C5: with the identity shuffle and moon points all at the
origin, the returned labels count 500 zeros, and entry 0 — labelled 0 — is
the origin shifted by `(-0.1, 0.2)`. -/
theorem make_training_data_props_witness :
    ((List.range (2 * 500)).Perm (List.range (2 * 500))) ∧
    (make_training_data 500 (fun _ => ((0:ℚ), (0:ℚ)))
        (List.range (2 * 500))).2.count 0 = 500 ∧
    (make_training_data 500 (fun _ => ((0:ℚ), (0:ℚ)))
        (List.range (2 * 500))).1.getD 0 (0, 0) =
      (((fun _ => ((0:ℚ), (0:ℚ))) ((List.range (2 * 500)).getD 0 0)).1 + (-1/10),
        ((fun _ => ((0:ℚ), (0:ℚ))) ((List.range (2 * 500)).getD 0 0)).2 + 2/10) := by
  have h := make_training_data_props (fun _ => ((0:ℚ), (0:ℚ)))
    (List.range (2 * 500)) (List.Perm.refl _)
  refine ⟨List.Perm.refl _, h.2.2.2.1, (h.2.2.2.2.2 0 (by norm_num)).1 ?_⟩
  show ((List.range (2 * 500)).map
    (fun k => (moonLabelsBase 500).getD k 0)).getD 0 0 = 0
  rw [List.getD_eq_getElem _ _ (by simp), List.getElem_map, List.getElem_range]
  exact moonLabelsBase_getD_lt (by norm_num)

/-- Witness for C7: on the concrete probability array `[0, 1/2, 1]` the
hypotheses hold, every uncertainty score is at most the score at `1/2`, and
the vanishing characterization applies at `p = 1`. -/
theorem uncertainty_max_at_half_witness :
    (∀ p ∈ [(0:ℚ), 1/2, 1], 0 ≤ p ∧ p ≤ 1) ∧
    (∀ q ∈ resnet_uncertainty [(0:ℚ), 1/2, 1], q ≤ uncertaintyOf (1/2)) ∧
    (uncertaintyOf (1:ℚ) = 0 ↔ (1:ℚ) = 0 ∨ (1:ℚ) = 1) :=
  ⟨by norm_num [List.forall_mem_cons],
   (uncertainty_max_at_half [0, 1/2, 1] (by norm_num [List.forall_mem_cons])).1,
   ((uncertainty_max_at_half [0, 1/2, 1]
      (by norm_num [List.forall_mem_cons])).2 1 (by simp)).2⟩

end SNGP
